import Mathlib

/-!
Verification development for the SplitSmart balance / split computation core.

The embedding follows `src/utils/split.ts` (`refId`, `computeShares`,
`validateSplit`) and the balance aggregator `calculateMemberExpenses` in
`src/app/(auth)/groups.tsx`, lines 374-430.

Modelling conventions (a rational-number shadow of the JavaScript source):
* JavaScript numbers are modelled as exact rationals `ℚ`; numeric literals of
  the source (`0.009`, `100`, `40`, ...) are taken at their intended rational
  value.  `NaN` and the infinities are outside the model; the source coercion
  `Number(x) || 0` therefore becomes `jsOr x 0`, which is the identity on
  rationals (`x || 0` maps `0` to `0` and any other number to itself).
* `Math.round` is `fun x => ⌊x + 1/2⌋` (round half toward positive infinity),
  and `Number.EPSILON` is kept at its exact value `2 ^ (-52)`.
* A JavaScript object used as a string-keyed dictionary (`Record<string, T>`)
  is an association list `List (String × T)` with key-preserving overwrite
  (`store`) and first-match lookup (`lookup?`); insertion order is preserved,
  as in JavaScript.
* Falsiness of strings: the only falsy string is `""`; `.filter(Boolean)` on a
  string array becomes `List.filter (fun s => s != "")`.
-/

namespace SplitSmart

/-- JavaScript `x || d` for a number `x`: `0` (and, outside this exact model,
`NaN`) is falsy and replaced by `d`; every other number is kept. -/
def jsOr (x d : ℚ) : ℚ := if x = 0 then d else x

/-- JavaScript `x || d` where `x : number | undefined` (`undefined` is falsy). -/
def jsOrOpt (x : Option ℚ) (d : ℚ) : ℚ :=
  match x with
  | none => d
  | some v => jsOr v d

/-- JavaScript `s || d` for a string `s`: only `""` is falsy. -/
def jsOrStr (s d : String) : String := if s = "" then d else s

/-- JavaScript `s || d` where `s : string | missingined`. -/
def jsOrStrOpt (s : Option String) (d : String) : String :=
  match s with
  | none => d
  | some v => jsOrStr v d

/-- `Number.EPSILON`, exactly. -/
def epsilonJS : ℚ := 1 / 2 ^ 52

/-- JavaScript `Math.round`: round half toward positive infinity. -/
def jsRound (x : ℚ) : ℚ := (⌊x + 1 / 2⌋ : ℤ)

/-- JavaScript `Math.abs` on the rational shadow. -/
def jsAbs (x : ℚ) : ℚ := if x < 0 then -x else x

/-- JavaScript `Math.max` (two arguments, no `NaN`). -/
def jsMax (a b : ℚ) : ℚ := if a < b then b else a

/-- `round2` from `src/utils/split.ts`:
`Math.round((n + Number.EPSILON) * 100) / 100`. -/
def round2 (n : ℚ) : ℚ := jsRound ((n + epsilonJS) * 100) / 100

/-- First-match lookup in an association list: JavaScript `m[k]` on an object
used as a dictionary (`undefined`, i.e. `none`, when the key is absent). -/
def lookup? {α : Type} : List (String × α) → String → Option α
  | [], _ => none
  | (k', v) :: rest, k => if k' = k then some v else lookup? rest k

/-- JavaScript `m[k] ?? d`. -/
def lookupD {α : Type} (m : List (String × α)) (k : String) (d : α) : α :=
  (lookup? m k).getD d

/-- JavaScript assignment `m[k] = v` on an object used as a dictionary:
overwrite in place when the key exists, append otherwise. -/
def store {α : Type} : List (String × α) → String → α → List (String × α)
  | [], k, v => [(k, v)]
  | (k', v') :: rest, k, v =>
      if k' = k then (k, v) :: rest else (k', v') :: store rest k v

/-- The source pattern `ids.forEach((id) => (result[id] = f(id)))` starting
from an empty object (`computeShares` builds every result this way). -/
def storeShares (ids : List String) (f : String → ℚ) : List (String × ℚ) :=
  ids.foldl (fun r id => store r id (f id)) []

/-- Sum of the values of a share map (`Object.values(m)` summed). -/
def sumValues (m : List (String × ℚ)) : ℚ := (m.map (fun p => p.2)).sum

/-- A `string | DocumentReference | { id?: string } | missingined` value, as fed
to `refId`.  A `DocumentReference` is an object carrying an `id` string. -/
inductive UserRef : Type
  | str (s : String)
  | ref (id : String)
  | missing
deriving DecidableEq

/-- `refId` from `src/utils/split.ts`: resolve a user reference to an id
string; falsy inputs (including the empty string, or an object whose `id`
field is falsy) resolve to `undefined`. -/
def refId : UserRef → Option String
  | .str s => if s = "" then none else some s
  | .ref id => if id = "" then none else some id
  | .missing => none

/-- One `SplitAllocation` entry (`components/model/expense`): a user reference
together with a numeric value. -/
structure Allocation : Type where
  user : UserRef
  value : ℚ
deriving DecidableEq

/-- An `ExpenseSplit` (`components/model/expense`): a split type tag and the
allocation list. -/
structure ExpenseSplit : Type where
  type : String
  allocations : List Allocation
deriving DecidableEq

/-- `(participantIds || []).filter(Boolean)` from `computeShares`. -/
def filteredIds (participantIds : List String) : List String :=
  participantIds.filter (fun s => s != "")

/-- The percent-path reduce of `computeShares`: one pass over the allocations
building the `id ↦ value` map (later entries overwrite) while accumulating
`percentSum`; allocations whose user does not resolve are skipped. -/
def percentMapSum (allocs : List Allocation) : List (String × ℚ) × ℚ :=
  allocs.foldl
    (fun st a =>
      match refId a.user with
      | none => st
      | some id =>
          let v := jsOr a.value 0
          (store st.1 id v, st.2 + v))
    ([], 0)

/-- The amount-path pass of `computeShares`: build the `id ↦ clamped value`
map (`Math.max(0, Number(a.value) || 0)`) and accumulate its running sum. -/
def amountMapSum (allocs : List Allocation) : List (String × ℚ) × ℚ :=
  allocs.foldl
    (fun st a =>
      match refId a.user with
      | none => st
      | some id =>
          let v := jsMax 0 (jsOr a.value 0)
          (store st.1 id v, st.2 + v))
    ([], 0)

/-- `computeShares` from `src/utils/split.ts` (lines 13-73), on the rational
shadow.  The duplicated equal-division block (source lines 18-21 and 70-72) is
`storeShares ids (fun _ => round2 (cleanTotal / n))`. -/
def computeShares (totalAmount : ℚ) (participantIds : List String)
    (split? : Option ExpenseSplit) : List (String × ℚ) :=
  let cleanTotal := jsOr totalAmount 0
  let ids := filteredIds participantIds
  let n : ℕ := if ids.length = 0 then 1 else ids.length
  match split? with
  | none => storeShares ids (fun _ => round2 (cleanTotal / (n : ℚ)))
  | some split =>
    if split.type = "equal" then
      storeShares ids (fun _ => round2 (cleanTotal / (n : ℚ)))
    else if split.type = "percent" then
      let ms := percentMapSum split.allocations
      let factor := if ms.2 = 0 then 0 else 100 / ms.2
      storeShares ids (fun id => round2 (lookupD ms.1 id 0 * factor / 100 * cleanTotal))
    else if split.type = "amount" then
      let ms := amountMapSum split.allocations
      let remainder := cleanTotal - ms.2
      let leftovers := ids.filter (fun id => (lookup? ms.1 id).isNone)
      let distribute := 9 / 1000 < jsAbs remainder ∧ 0 < leftovers.length
      let map₁ :=
        if distribute then
          leftovers.foldl
            (fun m id => store m id (jsOrOpt (lookup? m id) 0 + remainder / (leftovers.length : ℚ)))
            ms.1
        else ms.1
      let sum₁ := if distribute then cleanTotal else ms.2
      if 9 / 1000 < jsAbs (sum₁ - cleanTotal) then
        let factor := if sum₁ = 0 then 0 else cleanTotal / sum₁
        storeShares ids (fun id => round2 (lookupD map₁ id 0 * factor))
      else
        storeShares ids (fun id => round2 (lookupD map₁ id 0))
    else
      storeShares ids (fun _ => round2 (cleanTotal / (n : ℚ)))

/-- The number of participants used as the equal-split denominator:
`ids.length || 1` on the filtered id list. -/
def equalDen (participantIds : List String) : ℕ :=
  if (filteredIds participantIds).length = 0 then 1 else (filteredIds participantIds).length

/-- The resolved, clamped entries of an amount-split allocation list: one
`(userId, max 0 value)` pair per allocation whose user reference resolves. -/
def amountEntries (allocs : List Allocation) : List (String × ℚ) :=
  allocs.filterMap (fun a => (refId a.user).map (fun u => (u, jsMax 0 (jsOr a.value 0))))

/-- The leftover participants of an amount split: listed (truthy) ids with no
allocation entry. -/
def amountLeftovers (participantIds : List String) (allocs : List Allocation) : List String :=
  (filteredIds participantIds).filter (fun id => (lookup? (amountMapSum allocs).1 id).isNone)

/-- The allocation map after the amount-path remainder distribution loop
(`map[id] = (map[id] || 0) + each` over the leftovers). -/
def distributedMap (totalAmount : ℚ) (participantIds : List String)
    (allocs : List Allocation) : List (String × ℚ) :=
  (amountLeftovers participantIds allocs).foldl
    (fun m id =>
      store m id
        (jsOrOpt (lookup? m id) 0 +
          (jsOr totalAmount 0 - (amountMapSum allocs).2) /
            ((amountLeftovers participantIds allocs).length : ℚ)))
    (amountMapSum allocs).1

/-- The `{ ok, message? }` result of `validateSplit`. -/
structure ValidateResult : Type where
  ok : Bool
  message : Option String
deriving DecidableEq

/-- `validateSplit` from `src/utils/split.ts` (lines 75-88). -/
def validateSplit (_totalAmount : ℚ) (_participantIds : List String)
    (split? : Option ExpenseSplit) : ValidateResult :=
  match split? with
  | none => ⟨true, none⟩
  | some split =>
    if split.type = "equal" then ⟨true, none⟩
    else if split.type = "percent" then
      let sum := split.allocations.foldl (fun acc a => acc + jsOr a.value 0) 0
      if sum ≤ 0 then ⟨false, some "Percentages must sum to > 0"⟩ else ⟨true, none⟩
    else if split.type = "amount" then
      let sum := split.allocations.foldl (fun acc a => acc + jsMax 0 (jsOr a.value 0)) 0
      if sum < 0 then ⟨false, some "Invalid amounts"⟩ else ⟨true, none⟩
    else ⟨true, none⟩

/-- A JavaScript value as inspected by `getUserId` in `groups.tsx`: a string,
an object (with optional `id` and `user` fields), or `undefined`/`null`. -/
inductive JVal : Type
  | str (s : String)
  | obj (id : Option String) (user : Option JVal)
  | missing

/-- `getUserId` from `calculateMemberExpenses` (`groups.tsx` lines 384-391):
falsy values (including `""`) give `undefined`; a string gives itself; then
the `id` field (any string, even `""`), the `user` field when it is a string,
and `user.id` (guarded by `u.user` being truthy) are tried in order. -/
def getUserId : JVal → Option String
  | .missing => none
  | .str s => if s = "" then none else some s
  | .obj id usr =>
      match id with
      | some s => some s
      | none =>
          match usr with
          | some (.str s) => some s
          | some (.obj (some s) _) => some s
          | _ => none

/-- The `u.user` field of a `JVal`, as passed to `getUserId(p.user)`. -/
def jvalUser : JVal → JVal
  | .obj _ (some u) => u
  | _ => .missing

/-- A raw participant entry of a stored expense: the value itself (inspected
by `getUserId(p)` and `getUserId(p.user)`) plus its `status` field. -/
structure RawParticipant : Type where
  self : JVal
  status : Option String

/-- A normalized participant `{ id, status }` (`groups.tsx` lines 395-398). -/
structure NormParticipant : Type where
  id : String
  status : String
deriving DecidableEq

/-- An expense as consumed by the balance aggregator. `participants` is
`none` when the stored field is not an array (`Array.isArray` guard). -/
structure Expense : Type where
  amount : ℚ
  paidBy : JVal
  participants : Option (List RawParticipant)
  split : Option ExpenseSplit

/-- A group member `{ id, name?, email? }` as read from the roster. -/
structure Member : Type where
  id : String
  name : Option String
  email : Option String
deriving DecidableEq

/-- A `{ name, amount }` entry of the `owedTo` / `owedBy` maps. -/
structure NamedAmount : Type where
  name : String
  amount : ℚ
deriving DecidableEq

/-- The mutable accumulator of `calculateMemberExpenses`. -/
structure AggState : Type where
  totalOwed : ℚ
  totalPaid : ℚ
  owedTo : List (String × NamedAmount)
  owedBy : List (String × NamedAmount)
deriving DecidableEq

/-- The result record of `calculateMemberExpenses`. -/
structure BalanceResult : Type where
  totalOwed : ℚ
  totalPaid : ℚ
  owedTo : List (String × NamedAmount)
  owedBy : List (String × NamedAmount)
  totalIsOwed : ℚ
  netBalance : ℚ
deriving DecidableEq

/-- Participant normalization (`groups.tsx` lines 394-398):
`{id: getUserId(p.user) || getUserId(p) || "", status: p.status || "unpaid"}`
followed by `.filter((p) => !!p.id)`. -/
def expParticipants (e : Expense) : List NormParticipant :=
  ((e.participants.getD []).map (fun p =>
      { id := jsOrStr (jsOrStrOpt (getUserId (jvalUser p.self)) (jsOrStrOpt (getUserId p.self) "")) ""
        status := jsOrStrOpt p.status "unpaid" })).filter
    (fun p => p.id != "")

/-- The `memberById` index (`groups.tsx` lines 379-382): a map from truthy
member ids to the member records. -/
def memberIndex (members : List Member) : List (String × Member) :=
  members.foldl (fun m mem => if mem.id = "" then m else store m mem.id mem) []

/-- Counterparty display-name resolution
(`memberById[id]?.name || memberById[id]?.email || fallback`). -/
def resolveName (memberById : List (String × Member)) (id : String) (fallback : String) : String :=
  match lookup? memberById id with
  | none => fallback
  | some m => jsOrStrOpt m.name (jsOrStrOpt m.email fallback)

/-- The payer display name (`groups.tsx` line 401):
`(payerId && (memberById[payerId]?.name || memberById[payerId]?.email)) || "Unknown"`. -/
def payerDisplayName (memberById : List (String × Member)) (payerId : Option String) : String :=
  match payerId with
  | none => "Unknown"
  | some pid =>
      if pid = "" then "Unknown"
      else
        match lookup? memberById pid with
        | none => "Unknown"
        | some m => jsOrStrOpt m.name (jsOrStrOpt m.email "Unknown")

/-- The `participants.forEach` loop of the payer branch (`groups.tsx` lines
409-417): accumulate each other, not-yet-paid participant's share into the
`owedBy` map. -/
def accumulateOwedBy (memberById : List (String × Member)) (memberId : String)
    (shareMap : List (String × ℚ)) (ps : List NormParticipant)
    (owedBy : List (String × NamedAmount)) : List (String × NamedAmount) :=
  ps.foldl
    (fun ob p =>
      if p.id ≠ memberId ∧ p.status ≠ "paid" then
        let amt := jsOrOpt (lookup? shareMap p.id) 0
        match lookup? ob p.id with
        | some e => store ob p.id ⟨e.name, e.amount + amt⟩
        | none => store ob p.id ⟨resolveName memberById p.id p.id, amt⟩
      else ob)
    owedBy

/-- The body of the `expenses.forEach` loop of `calculateMemberExpenses`
(`groups.tsx` lines 393-425), acting on the accumulator state. -/
def processExpense (memberById : List (String × Member)) (memberId : String)
    (st : AggState) (expense : Expense) : AggState :=
  let participants := expParticipants expense
  let payerId := getUserId expense.paidBy
  let payerName := payerDisplayName memberById payerId
  let shareMap := computeShares (jsOr expense.amount 0) (participants.map (fun p => p.id)) expense.split
  match participants.find? (fun p => p.id == memberId) with
  | none => st
  | some memberParticipant =>
    if payerId = some memberId then
      { st with
        totalPaid := st.totalPaid + jsOr expense.amount 0
        owedBy := accumulateOwedBy memberById memberId shareMap participants st.owedBy }
    else
      if memberParticipant.status ≠ "paid" ∧ payerId ≠ none ∧ payerId ≠ some "" ∧ payerId ≠ some memberId then
        let amt := jsOrOpt (lookup? shareMap memberId) 0
        { st with
          totalOwed := st.totalOwed + amt
          owedTo :=
            match lookup? st.owedTo ((payerId).getD "") with
            | some e => store st.owedTo ((payerId).getD "") ⟨e.name, e.amount + amt⟩
            | none => store st.owedTo ((payerId).getD "") ⟨payerName, amt⟩ }
      else st

/-- `calculateMemberExpenses` from `groups.tsx` (lines 374-430): fold the
per-expense bookkeeping over all expenses, then derive `totalIsOwed` and
`netBalance`. -/
def calculateMemberExpenses (members : List Member) (expenses : List Expense)
    (memberId : String) : BalanceResult :=
  let memberById := memberIndex members
  let st := expenses.foldl (processExpense memberById memberId) ⟨0, 0, [], []⟩
  let totalIsOwed := (st.owedBy.map (fun p => p.2.amount)).sum
  { totalOwed := st.totalOwed
    totalPaid := st.totalPaid
    owedTo := st.owedTo
    owedBy := st.owedBy
    totalIsOwed := totalIsOwed
    netBalance := totalIsOwed - st.totalOwed }

/-! Basic facts about the JavaScript-shadow helpers. -/

theorem jsOr_zero (x : ℚ) : jsOr x 0 = x := by
  unfold jsOr
  split <;> simp_all

theorem jsAbs_eq_abs (x : ℚ) : jsAbs x = |x| := by
  unfold jsAbs
  rcases le_or_lt 0 x with h | h
  · rw [if_neg (not_lt.mpr h), abs_of_nonneg h]
  · rw [if_pos h, abs_of_neg h]

theorem jsMax_eq_max (a b : ℚ) : jsMax a b = max a b := by
  unfold jsMax
  rcases le_or_lt b a with h | h
  · rw [if_neg (not_lt.mpr h), max_eq_left h]
  · rw [if_pos h, max_eq_right h.le]

theorem jsOrOpt_none (d : ℚ) : jsOrOpt none d = d := rfl

/-! Association-list lemmas for `store` / `lookup?`. -/

theorem lookup?_store_self {α : Type} (m : List (String × α)) (k : String) (v : α) :
    lookup? (store m k v) k = some v := by
  induction m with
  | nil => simp [store, lookup?]
  | cons p rest ih =>
      obtain ⟨k', v'⟩ := p
      by_cases h : k' = k
      · subst h
        simp [store, lookup?]
      · simp only [store, if_neg h, lookup?]
        simpa [h] using ih

theorem lookup?_store_ne {α : Type} (m : List (String × α)) (k k' : String) (v : α)
    (h : k' ≠ k) : lookup? (store m k v) k' = lookup? m k' := by
  induction m with
  | nil =>
      simp only [store, lookup?]
      rw [if_neg (fun hh => h hh.symm)]
  | cons p rest ih =>
      obtain ⟨a, b⟩ := p
      by_cases ha : a = k
      · subst ha
        simp only [store, if_pos rfl, lookup?]
        rw [if_neg (fun hh => h hh.symm), if_neg (fun hh => h hh.symm)]
      · simp only [store, if_neg ha, lookup?]
        split
        · rfl
        · exact ih

theorem lookup?_eq_none_iff {α : Type} (m : List (String × α)) (k : String) :
    lookup? m k = none ↔ k ∉ m.map (fun p => p.1) := by
  induction m with
  | nil => simp [lookup?]
  | cons p rest ih =>
      obtain ⟨a, b⟩ := p
      by_cases ha : a = k
      · subst ha
        simp [lookup?]
      · simp only [lookup?, if_neg ha, List.map_cons, List.mem_cons, ih]
        constructor
        · rintro h (rfl | hmem)
          · exact ha rfl
          · exact h hmem
        · intro h hmem
          exact h (Or.inr hmem)

theorem store_of_absent {α : Type} (m : List (String × α)) (k : String) (v : α)
    (h : lookup? m k = none) : store m k v = m ++ [(k, v)] := by
  induction m with
  | nil => simp [store]
  | cons p rest ih =>
      obtain ⟨a, b⟩ := p
      by_cases ha : a = k
      · subst ha
        simp [lookup?] at h
      · simp only [lookup?, if_neg ha] at h
        simp [store, if_neg ha, ih h]

theorem lookup?_append {α : Type} (m₁ m₂ : List (String × α)) (k : String) :
    lookup? (m₁ ++ m₂) k =
      match lookup? m₁ k with
      | some v => some v
      | none => lookup? m₂ k := by
  induction m₁ with
  | nil => simp [lookup?]
  | cons p rest ih =>
      obtain ⟨a, b⟩ := p
      by_cases ha : a = k
      · subst ha
        simp [lookup?]
      · simp only [List.cons_append, lookup?, if_neg ha]
        exact ih

/-! Lemmas about the `forEach`-store pattern `storeShares`. -/

theorem foldl_store_lookup (ids : List String) (f : String → ℚ)
    (m₀ : List (String × ℚ)) (k : String) :
    lookup? (ids.foldl (fun r id => store r id (f id)) m₀) k =
      if k ∈ ids then some (f k) else lookup? m₀ k := by
  induction ids generalizing m₀ with
  | nil => simp
  | cons a rest ih =>
      simp only [List.foldl_cons]
      rw [ih]
      by_cases hk : k ∈ rest
      · simp [hk]
      · by_cases hak : k = a
        · subst hak
          simp [hk, lookup?_store_self]
        · have : a ≠ k := fun h => hak h.symm
          simp [hk, hak, lookup?_store_ne _ _ _ _ hak]

theorem storeShares_lookup (ids : List String) (f : String → ℚ) (k : String) :
    lookup? (storeShares ids f) k = if k ∈ ids then some (f k) else none := by
  unfold storeShares
  rw [foldl_store_lookup]
  rfl

theorem foldl_store_eq_append (ids : List String) (f : String → ℚ)
    (m₀ : List (String × ℚ)) (hnd : ids.Nodup)
    (habs : ∀ id ∈ ids, lookup? m₀ id = none) :
    ids.foldl (fun r id => store r id (f id)) m₀ =
      m₀ ++ ids.map (fun id => (id, f id)) := by
  induction ids generalizing m₀ with
  | nil => simp
  | cons a rest ih =>
      simp only [List.foldl_cons]
      rw [store_of_absent _ _ _ (habs a (List.mem_cons_self a rest))]
      rw [ih (m₀ ++ [(a, f a)]) (List.nodup_cons.mp hnd).2]
      · simp
      · intro id hid
        rw [lookup?_append]
        rw [habs id (List.mem_cons_of_mem a hid)]
        have hne : a ≠ id := fun h => (List.nodup_cons.mp hnd).1 (h ▸ hid)
        simp [lookup?, if_neg hne]

theorem storeShares_eq_map (ids : List String) (f : String → ℚ) (hnd : ids.Nodup) :
    storeShares ids f = ids.map (fun id => (id, f id)) := by
  unfold storeShares
  rw [foldl_store_eq_append ids f [] hnd (fun id _ => rfl)]
  simp

theorem sumValues_storeShares (ids : List String) (f : String → ℚ) (hnd : ids.Nodup) :
    sumValues (storeShares ids f) = (ids.map f).sum := by
  rw [storeShares_eq_map ids f hnd]
  unfold sumValues
  rw [List.map_map]
  rfl

/-! Branch-selection lemmas for `computeShares`: one equation per control-flow
path of the source function. -/

theorem computeShares_noSplit (T : ℚ) (pids : List String) :
    computeShares T pids none =
      storeShares (filteredIds pids)
        (fun _ => round2 (jsOr T 0 / (equalDen pids : ℚ))) := rfl

theorem computeShares_equal (T : ℚ) (pids : List String) (sp : ExpenseSplit)
    (h : sp.type = "equal") :
    computeShares T pids (some sp) =
      storeShares (filteredIds pids)
        (fun _ => round2 (jsOr T 0 / (equalDen pids : ℚ))) := by
  simp only [computeShares, h, equalDen]
  simp

theorem computeShares_percent (T : ℚ) (pids : List String) (sp : ExpenseSplit)
    (h : sp.type = "percent") :
    computeShares T pids (some sp) =
      storeShares (filteredIds pids)
        (fun id =>
          round2 (lookupD (percentMapSum sp.allocations).1 id 0 *
            (if (percentMapSum sp.allocations).2 = 0 then 0
              else 100 / (percentMapSum sp.allocations).2) / 100 * jsOr T 0)) := by
  simp only [computeShares, h]
  simp

theorem computeShares_unknown (T : ℚ) (pids : List String) (sp : ExpenseSplit)
    (h₁ : sp.type ≠ "equal") (h₂ : sp.type ≠ "percent") (h₃ : sp.type ≠ "amount") :
    computeShares T pids (some sp) =
      storeShares (filteredIds pids)
        (fun _ => round2 (jsOr T 0 / (equalDen pids : ℚ))) := by
  simp only [computeShares, h₁, h₂, h₃, equalDen]
  simp [h₁, h₂, h₃]

theorem amountLeftovers_eq (pids : List String) (allocs : List Allocation) :
    (filteredIds pids).filter (fun id => (lookup? (amountMapSum allocs).1 id).isNone) =
      amountLeftovers pids allocs := rfl

theorem computeShares_amount_distribute (T : ℚ) (pids : List String) (sp : ExpenseSplit)
    (h : sp.type = "amount")
    (hd : 9 / 1000 < jsAbs (jsOr T 0 - (amountMapSum sp.allocations).2) ∧
      0 < (amountLeftovers pids sp.allocations).length) :
    computeShares T pids (some sp) =
      storeShares (filteredIds pids)
        (fun id => round2 (lookupD (distributedMap T pids sp.allocations) id 0)) := by
  simp only [computeShares, h]
  simp only [String.reduceEq, if_false, reduceIte]
  rw [amountLeftovers_eq]
  simp only [if_pos hd]
  rw [if_neg (by rw [sub_self, jsAbs]; norm_num)]
  rfl

theorem computeShares_amount_rescale (T : ℚ) (pids : List String) (sp : ExpenseSplit)
    (h : sp.type = "amount")
    (hnd : ¬(9 / 1000 < jsAbs (jsOr T 0 - (amountMapSum sp.allocations).2) ∧
      0 < (amountLeftovers pids sp.allocations).length))
    (hs : 9 / 1000 < jsAbs ((amountMapSum sp.allocations).2 - jsOr T 0)) :
    computeShares T pids (some sp) =
      storeShares (filteredIds pids)
        (fun id =>
          round2 (lookupD (amountMapSum sp.allocations).1 id 0 *
            (if (amountMapSum sp.allocations).2 = 0 then 0
              else jsOr T 0 / (amountMapSum sp.allocations).2))) := by
  simp only [computeShares, h]
  simp only [String.reduceEq, if_false, reduceIte]
  rw [amountLeftovers_eq]
  simp only [if_neg hnd]
  rw [if_pos hs]

theorem computeShares_amount_balanced (T : ℚ) (pids : List String) (sp : ExpenseSplit)
    (h : sp.type = "amount")
    (hnd : ¬(9 / 1000 < jsAbs (jsOr T 0 - (amountMapSum sp.allocations).2) ∧
      0 < (amountLeftovers pids sp.allocations).length))
    (hs : ¬(9 / 1000 < jsAbs ((amountMapSum sp.allocations).2 - jsOr T 0))) :
    computeShares T pids (some sp) =
      storeShares (filteredIds pids)
        (fun id => round2 (lookupD (amountMapSum sp.allocations).1 id 0)) := by
  simp only [computeShares, h]
  simp only [String.reduceEq, if_false, reduceIte]
  rw [amountLeftovers_eq]
  simp only [if_neg hnd]
  rw [if_neg hs]

/-! Bounds for the cent rounding `round2`. -/

theorem round2_eq_floor (x : ℚ) :
    round2 x = ((⌊(x + 1 / 2 ^ 52) * 100 + 1 / 2⌋ : ℤ) : ℚ) / 100 := rfl

theorem round2_sub_le (x : ℚ) : |round2 x - x| ≤ 51 / 10000 := by
  rw [round2_eq_floor]
  have h1 : ((⌊(x + 1 / 2 ^ 52) * 100 + 1 / 2⌋ : ℤ) : ℚ) ≤ (x + 1 / 2 ^ 52) * 100 + 1 / 2 :=
    Int.floor_le _
  have h2 : (x + 1 / 2 ^ 52) * 100 + 1 / 2 - 1 < ((⌊(x + 1 / 2 ^ 52) * 100 + 1 / 2⌋ : ℤ) : ℚ) :=
    Int.sub_one_lt_floor _
  rw [abs_le]
  constructor <;> nlinarith [h1, h2]

theorem round2_nonpos (x : ℚ) (h : x ≤ 0) : round2 x ≤ 0 := by
  rw [round2_eq_floor]
  have h1 : (⌊(x + 1 / 2 ^ 52) * 100 + 1 / 2⌋ : ℤ) < 1 := by
    apply Int.floor_lt.mpr
    push_cast
    nlinarith
  have h3 : ((⌊(x + 1 / 2 ^ 52) * 100 + 1 / 2⌋ : ℤ) : ℚ) ≤ 0 := by
    exact_mod_cast Int.lt_add_one_iff.mp h1
  rw [div_nonpos_iff]
  right
  exact ⟨h3, by norm_num⟩

/-! Summation lemmas. -/

theorem sum_map_sub_abs_le (l : List String) (f g : String → ℚ) (c : ℚ)
    (h : ∀ x ∈ l, |f x - g x| ≤ c) :
    |(l.map f).sum - (l.map g).sum| ≤ l.length * c := by
  induction l with
  | nil => simp
  | cons a t ih =>
      have h1 := h a (List.mem_cons_self a t)
      have h2 := ih (fun x hx => h x (List.mem_cons_of_mem a hx))
      simp only [List.map_cons, List.sum_cons, List.length_cons]
      have key : |f a + (t.map f).sum - (g a + (t.map g).sum)| ≤
          |f a - g a| + |(t.map f).sum - (t.map g).sum| := by
        have := abs_add (f a - g a) ((t.map f).sum - (t.map g).sum)
        calc |f a + (t.map f).sum - (g a + (t.map g).sum)|
            = |(f a - g a) + ((t.map f).sum - (t.map g).sum)| := by ring_nf
          _ ≤ |f a - g a| + |(t.map f).sum - (t.map g).sum| := this
      have hc : (0 : ℚ) ≤ c := le_trans (abs_nonneg _) h1
      calc |f a + (t.map f).sum - (g a + (t.map g).sum)|
          ≤ |f a - g a| + |(t.map f).sum - (t.map g).sum| := key
        _ ≤ c + t.length * c := add_le_add h1 h2
        _ = (t.length + 1) * c := by ring
        _ = ((t.length + 1 : ℕ) : ℚ) * c := by push_cast; ring

theorem sum_map_ite_mem (ids : List String) (k : String) (v : ℚ) (g : String → ℚ)
    (hnd : ids.Nodup) (hk : k ∈ ids) :
    (ids.map (fun id => if k = id then v else g id)).sum =
      v + (ids.map (fun id => if k = id then 0 else g id)).sum := by
  induction ids with
  | nil => cases hk
  | cons a t ih =>
      rcases List.nodup_cons.mp hnd with ⟨hat, hndt⟩
      rcases List.mem_cons.mp hk with hka | hkt
      · subst hka
        simp only [List.map_cons, List.sum_cons, if_pos rfl]
        have ht : t.map (fun id => if k = id then v else g id) =
            t.map (fun id => if k = id then 0 else g id) := by
          apply List.map_congr_left
          intro x hx
          have hkx : k ≠ x := fun h => hat (h ▸ hx)
          simp [hkx]
        rw [ht]
        simp [add_comm]
      · have hka : k ≠ a := fun h => hat (h ▸ hkt)
        simp only [List.map_cons, List.sum_cons, if_neg hka]
        rw [ih hndt hkt]
        ring

theorem sum_map_ite_zero (ids : List String) (k : String) (g : String → ℚ)
    (hgk : g k = 0) :
    (ids.map (fun id => if k = id then 0 else g id)).sum = (ids.map g).sum := by
  have : ids.map (fun id => if k = id then 0 else g id) = ids.map g := by
    apply List.map_congr_left
    intro x _
    by_cases h : k = x
    · subst h
      simp [hgk]
    · simp [h]
  rw [this]

theorem sum_lookupD (ids : List String) (m : List (String × ℚ))
    (hnd : ids.Nodup) (hknd : (m.map (fun p => p.1)).Nodup)
    (hsub : ∀ k ∈ m.map (fun p => p.1), k ∈ ids) :
    (ids.map (fun id => lookupD m id 0)).sum = sumValues m := by
  induction m with
  | nil =>
      simp [lookupD, lookup?, sumValues]
  | cons p m' ih =>
      obtain ⟨k, v⟩ := p
      have hk : k ∈ ids := hsub k (by simp)
      have hknd' : (m'.map (fun p => p.1)).Nodup := (List.nodup_cons.mp hknd).2
      have hkabs : k ∉ m'.map (fun p => p.1) := (List.nodup_cons.mp hknd).1
      have hsub' : ∀ q ∈ m'.map (fun p => p.1), q ∈ ids := by
        intro q hq
        exact hsub q (by simp [hq])
      have step : ids.map (fun id => lookupD ((k, v) :: m') id 0) =
          ids.map (fun id => if k = id then v else lookupD m' id 0) := by
        apply List.map_congr_left
        intro x _
        simp only [lookupD, lookup?]
        by_cases h : k = x <;> simp [h]
      rw [step, sum_map_ite_mem ids k v _ hnd hk,
        sum_map_ite_zero ids k _ (by
          simp only [lookupD]
          rw [(lookup?_eq_none_iff m' k).mpr hkabs]
          rfl),
        ih hknd' hsub']
      simp [sumValues]

theorem sum_map_mul_right_q (l : List String) (g : String → ℚ) (c : ℚ) :
    (l.map (fun id => g id * c)).sum = (l.map g).sum * c := by
  induction l with
  | nil => simp
  | cons a t ih =>
      simp [ih, add_mul]

theorem sum_map_const_q (l : List String) (c : ℚ) :
    (l.map (fun _ => c)).sum = l.length * c := by
  induction l with
  | nil => simp
  | cons a t ih =>
      simp [ih]
      ring

/-! Characterization of the allocation-map folds. -/

theorem amountFold_eq (allocs : List Allocation) (m₀ : List (String × ℚ)) (s₀ : ℚ)
    (hnd : ((amountEntries allocs).map (fun p => p.1)).Nodup)
    (hdis : ∀ k ∈ (amountEntries allocs).map (fun p => p.1), lookup? m₀ k = none) :
    allocs.foldl
      (fun st a =>
        match refId a.user with
        | none => st
        | some id =>
            let v := jsMax 0 (jsOr a.value 0)
            (store st.1 id v, st.2 + v))
      (m₀, s₀) =
    (m₀ ++ amountEntries allocs, s₀ + sumValues (amountEntries allocs)) := by
  induction allocs generalizing m₀ s₀ with
  | nil => simp [amountEntries, sumValues]
  | cons a rest ih =>
      rcases hu : refId a.user with _ | u
      · have he : amountEntries (a :: rest) = amountEntries rest := by
          simp [amountEntries, hu]
        rw [he] at hnd hdis
        simp only [List.foldl_cons, hu]
        rw [ih m₀ s₀ hnd hdis, he]
      · have he : amountEntries (a :: rest) =
            (u, jsMax 0 (jsOr a.value 0)) :: amountEntries rest := by
          simp [amountEntries, hu]
        rw [he] at hnd hdis
        have hu_notin : u ∉ (amountEntries rest).map (fun p => p.1) :=
          (List.nodup_cons.mp (by simpa using hnd)).1
        have hnd' : ((amountEntries rest).map (fun p => p.1)).Nodup :=
          (List.nodup_cons.mp (by simpa using hnd)).2
        have hm0u : lookup? m₀ u = none := hdis u (by simp)
        simp only [List.foldl_cons, hu]
        rw [store_of_absent m₀ u _ hm0u]
        rw [ih (m₀ ++ [(u, jsMax 0 (jsOr a.value 0))]) (s₀ + jsMax 0 (jsOr a.value 0)) hnd']
        · rw [he]
          simp only [Prod.mk.injEq]
          constructor
          · simp
          · simp [sumValues]
            ring
        · intro k hk
          rw [lookup?_append]
          rw [hdis k (by simp [hk])]
          have hku : u ≠ k := fun h => hu_notin (h ▸ hk)
          simp [lookup?, hku]

theorem amountMapSum_eq (allocs : List Allocation)
    (hnd : ((amountEntries allocs).map (fun p => p.1)).Nodup) :
    amountMapSum allocs = (amountEntries allocs, sumValues (amountEntries allocs)) := by
  unfold amountMapSum
  rw [amountFold_eq allocs [] 0 hnd (fun k _ => rfl)]
  simp

theorem leftoverFold_eq (lf : List String) (m₀ : List (String × ℚ)) (e : ℚ)
    (hnd : lf.Nodup) (habs : ∀ id ∈ lf, lookup? m₀ id = none) :
    lf.foldl (fun m id => store m id (jsOrOpt (lookup? m id) 0 + e)) m₀ =
      m₀ ++ lf.map (fun id => (id, e)) := by
  induction lf generalizing m₀ with
  | nil => simp
  | cons a t ih =>
      rcases List.nodup_cons.mp hnd with ⟨hat, hndt⟩
      have ha : lookup? m₀ a = none := habs a (by simp)
      simp only [List.foldl_cons]
      rw [ha]
      have hval : jsOrOpt none 0 + e = e := by
        simp [jsOrOpt]
      rw [hval, store_of_absent m₀ a e ha]
      rw [ih (m₀ ++ [(a, e)]) hndt]
      · simp
      · intro id hid
        rw [lookup?_append]
        rw [habs id (by simp [hid])]
        have hne : a ≠ id := fun h => hat (h ▸ hid)
        simp [lookup?, hne]

theorem amountLeftovers_nodup (pids : List String) (allocs : List Allocation)
    (hnd : (filteredIds pids).Nodup) : (amountLeftovers pids allocs).Nodup :=
  List.Nodup.filter _ hnd

theorem amountLeftovers_absent (pids : List String) (allocs : List Allocation) :
    ∀ id ∈ amountLeftovers pids allocs, lookup? (amountMapSum allocs).1 id = none := by
  intro id hid
  have := (List.mem_filter.mp hid).2
  exact Option.isNone_iff_eq_none.mp (by simpa using this)

theorem distributedMap_eq (T : ℚ) (pids : List String) (allocs : List Allocation)
    (hnd : (filteredIds pids).Nodup) :
    distributedMap T pids allocs =
      (amountMapSum allocs).1 ++
        (amountLeftovers pids allocs).map
          (fun id =>
            (id, (jsOr T 0 - (amountMapSum allocs).2) /
              ((amountLeftovers pids allocs).length : ℚ))) := by
  unfold distributedMap
  exact leftoverFold_eq _ _ _ (amountLeftovers_nodup pids allocs hnd)
    (amountLeftovers_absent pids allocs)

theorem lookup?_map_const (lf : List String) (e : ℚ) (k : String) :
    lookup? (lf.map (fun id => (id, e))) k = if k ∈ lf then some e else none := by
  induction lf with
  | nil => simp [lookup?]
  | cons a t ih =>
      by_cases h : a = k
      · subst h
        simp [lookup?]
      · simp only [List.map_cons, lookup?, if_neg h, ih]
        have : ¬k = a := fun hh => h hh.symm
        simp [this]

/-! Shared helper results about `computeShares`. -/

theorem round2_zero : round2 0 = 0 := by
  norm_num [round2, jsRound, epsilonJS]

theorem equalDen_of_mem (pids : List String) (id : String) (h : id ∈ filteredIds pids) :
    equalDen pids = (filteredIds pids).length := by
  unfold equalDen
  have : filteredIds pids ≠ [] := List.ne_nil_of_mem h
  rw [if_neg (fun hl => this (List.eq_nil_of_length_eq_zero hl))]

theorem equalPath_lookup (T : ℚ) (pids : List String) (id : String)
    (h : id ∈ filteredIds pids) :
    lookup? (computeShares T pids none) id =
      some (round2 (T / ((filteredIds pids).length : ℚ))) := by
  rw [computeShares_noSplit, storeShares_lookup, if_pos h, jsOr_zero,
    equalDen_of_mem pids id h]

theorem equalPath_lookup_split (T : ℚ) (pids : List String) (id : String)
    (allocs : List Allocation) (h : id ∈ filteredIds pids) :
    lookup? (computeShares T pids (some ⟨"equal", allocs⟩)) id =
      some (round2 (T / ((filteredIds pids).length : ℚ))) := by
  rw [computeShares_equal T pids ⟨"equal", allocs⟩ rfl, storeShares_lookup, if_pos h,
    jsOr_zero, equalDen_of_mem pids id h]

theorem computeShares_eq_storeShares (T : ℚ) (pids : List String)
    (s : Option ExpenseSplit) :
    ∃ f, computeShares T pids s = storeShares (filteredIds pids) f := by
  rcases s with _ | sp
  · exact ⟨_, computeShares_noSplit T pids⟩
  · by_cases h₁ : sp.type = "equal"
    · exact ⟨_, computeShares_equal T pids sp h₁⟩
    · by_cases h₂ : sp.type = "percent"
      · exact ⟨_, computeShares_percent T pids sp h₂⟩
      · by_cases h₃ : sp.type = "amount"
        · by_cases hd : 9 / 1000 < jsAbs (jsOr T 0 - (amountMapSum sp.allocations).2) ∧
            0 < (amountLeftovers pids sp.allocations).length
          · exact ⟨_, computeShares_amount_distribute T pids sp h₃ hd⟩
          · by_cases hs : 9 / 1000 < jsAbs ((amountMapSum sp.allocations).2 - jsOr T 0)
            · exact ⟨_, computeShares_amount_rescale T pids sp h₃ hd hs⟩
            · exact ⟨_, computeShares_amount_balanced T pids sp h₃ hd hs⟩
        · exact ⟨_, computeShares_unknown T pids sp h₁ h₂ h₃⟩

/-! ### Claim C3 -/

/-- C3 counterexample: the code does not deduplicate participant ids.  With
the duplicated list `["a", "a"]` the equal share of `"a"` is `round2 (100/2)
= 50`, not `round2 (100/1) = 100` as the deduplicated count would give. -/
theorem c3_counterexample :
    computeShares 100 ["a", "a"] none = [("a", 50)] ∧
    (filteredIds ["a", "a"]).dedup.length = 1 ∧
    round2 (100 / 1) = 100 ∧
    (50 : ℚ) ≠ 100 := by
  refine ⟨?_, by decide, ?_, by norm_num⟩
  · rw [computeShares_noSplit]
    simp [filteredIds, equalDen, storeShares, store, jsOr]
    norm_num [round2, jsRound, epsilonJS]
  · norm_num [round2, jsRound, epsilonJS]

/-- C3 (amended): when the split spec is absent or has type `"equal"`, each
listed participant's share equals `round2 (T / n)` where `n` counts the
present (non-falsy) participant ids **with multiplicity** (the source does
not deduplicate), and no remainder redistribution is performed: every
participant gets exactly this one rounded value. -/
theorem c3_equal_share_formula (T : ℚ) (pids : List String) (id : String)
    (allocs : List Allocation) (h : id ∈ filteredIds pids) :
    lookup? (computeShares T pids none) id =
      some (round2 (T / ((filteredIds pids).length : ℚ))) ∧
    lookup? (computeShares T pids (some ⟨"equal", allocs⟩)) id =
      some (round2 (T / ((filteredIds pids).length : ℚ))) :=
  ⟨equalPath_lookup T pids id h, equalPath_lookup_split T pids id allocs h⟩

/-- C3 witness at a concrete input. -/
theorem c3_witness :
    ("a" ∈ filteredIds ["a", "b", "c"]) ∧
    (lookup? (computeShares 100 ["a", "b", "c"] none) "a" =
      some (round2 (100 / ((filteredIds ["a", "b", "c"]).length : ℚ))) ∧
    lookup? (computeShares 100 ["a", "b", "c"] (some ⟨"equal", []⟩)) "a" =
      some (round2 (100 / ((filteredIds ["a", "b", "c"]).length : ℚ)))) :=
  ⟨by decide, c3_equal_share_formula 100 ["a", "b", "c"] "a" [] (by decide)⟩

/-! ### Claim C5 -/

/-- C5 counterexample: a negative total is NOT coerced to 0.
`computeShares(-100, ["a"])` yields the negative share `-100`, differing from
the result for total 0. -/
theorem c5_counterexample :
    computeShares (-100) ["a"] none = [("a", -100)] ∧
    computeShares 0 ["a"] none = [("a", 0)] ∧
    computeShares (-100) ["a"] none ≠ computeShares 0 ["a"] none ∧
    (-100 : ℚ) < 0 := by
  have h1 : computeShares (-100) ["a"] none = [("a", -100)] := by
    rw [computeShares_noSplit]
    simp [filteredIds, equalDen, storeShares, store, jsOr]
    norm_num [round2, jsRound, epsilonJS]
  have h2 : computeShares 0 ["a"] none = [("a", 0)] := by
    rw [computeShares_noSplit]
    simp [filteredIds, equalDen, storeShares, store, jsOr]
    norm_num [round2, jsRound, epsilonJS]
  refine ⟨h1, h2, ?_, by norm_num⟩
  rw [h1, h2]
  intro hcontr
  simp at hcontr

/-- C5 (amended): `Number(totalAmount) || 0` only coerces the falsy value `0`
(and, outside this exact model, `NaN`) — a negative total passes through
unchanged and propagates into nonpositive (at most 0, generally negative)
shares instead of being coerced to 0. -/
theorem c5_negative_total_propagates (T : ℚ) (pids : List String) (id : String)
    (hmem : id ∈ filteredIds pids) (hT : T < 0) :
    lookup? (computeShares T pids none) id =
      some (round2 (T / ((filteredIds pids).length : ℚ))) ∧
    round2 (T / ((filteredIds pids).length : ℚ)) ≤ 0 := by
  refine ⟨equalPath_lookup T pids id hmem, round2_nonpos _ ?_⟩
  apply div_nonpos_of_nonpos_of_nonneg hT.le
  exact_mod_cast Nat.zero_le _

/-- C5 witness at a concrete input. -/
theorem c5_witness :
    ("a" ∈ filteredIds ["a"] ∧ (-100 : ℚ) < 0) ∧
    (lookup? (computeShares (-100) ["a"] none) "a" =
      some (round2 ((-100) / ((filteredIds ["a"]).length : ℚ))) ∧
    round2 ((-100) / ((filteredIds ["a"]).length : ℚ)) ≤ 0) :=
  ⟨⟨by decide, by norm_num⟩,
    c5_negative_total_propagates (-100) ["a"] "a" (by decide) (by norm_num)⟩

/-! ### Claim C9 -/

/-- C9: when no truthy participant id remains after filtering, `computeShares`
returns the empty mapping on every path, for every total and split spec (the
degenerate denominator defaults to 1 and is never used; in this total
embedding neither `computeShares` nor `validateSplit` can throw). -/
theorem c9_empty_participants_empty_result (T : ℚ) (pids : List String)
    (s : Option ExpenseSplit) (h : filteredIds pids = []) :
    computeShares T pids s = [] := by
  obtain ⟨f, hf⟩ := computeShares_eq_storeShares T pids s
  rw [hf, h]
  rfl

/-- C9 witness at a concrete input (all-falsy participant list). -/
theorem c9_witness :
    (filteredIds ["", ""] = []) ∧
    computeShares 7 ["", ""] (some ⟨"amount", [⟨.str "a", 3⟩]⟩) = [] :=
  ⟨by decide,
    c9_empty_participants_empty_result 7 ["", ""] (some ⟨"amount", [⟨.str "a", 3⟩]⟩)
      (by decide)⟩

/-! ### Claim C10 -/

/-- C10: in all three split modes and the unknown-type fallback, the key set
of the returned mapping is exactly the truthy entries of `participantIds`;
an allocation for an unlisted user (here `"x"`) adds no key, yet its value
still feeds `percentSum` (with it, `"a"` gets 50, not 100). -/
theorem c10_key_set :
    (∀ (T : ℚ) (pids : List String) (s : Option ExpenseSplit) (k : String),
      (lookup? (computeShares T pids s) k).isSome = true ↔ k ∈ filteredIds pids) ∧
    lookup? (computeShares 100 ["a", "b"]
      (some ⟨"percent", [⟨.str "a", 25⟩, ⟨.str "x", 25⟩]⟩)) "x" = none ∧
    lookup? (computeShares 100 ["a", "b"]
      (some ⟨"percent", [⟨.str "a", 25⟩, ⟨.str "x", 25⟩]⟩)) "a" = some 50 := by
  refine ⟨?_, ?_, ?_⟩
  · intro T pids s k
    obtain ⟨f, hf⟩ := computeShares_eq_storeShares T pids s
    rw [hf, storeShares_lookup]
    by_cases h : k ∈ filteredIds pids <;> simp [h]
  · rw [computeShares_percent 100 ["a", "b"] ⟨"percent", [⟨.str "a", 25⟩, ⟨.str "x", 25⟩]⟩ rfl,
      storeShares_lookup]
    simp [filteredIds]
  · rw [computeShares_percent 100 ["a", "b"] ⟨"percent", [⟨.str "a", 25⟩, ⟨.str "x", 25⟩]⟩ rfl,
      storeShares_lookup]
    simp only [filteredIds]
    simp [percentMapSum, refId, jsOr, store, lookup?, lookupD]
    norm_num [round2, jsRound, epsilonJS]

/-! ### Claim C4 -/

/-- C4: for a percent-type split every requested participant's share is
`round2 (rawPercent * factor / 100 * totalAmount)` with `factor` the
normalization `100 / percentSum` (0 when `percentSum` is 0); an all-zero or
empty percent configuration therefore yields all-zero shares, and
over-allocated percents normalize (two 75% allocations of 100 give 50 each). -/
theorem c4_percent_share_formula :
    (∀ (T : ℚ) (pids : List String) (allocs : List Allocation) (id : String),
      id ∈ filteredIds pids →
        lookup? (computeShares T pids (some ⟨"percent", allocs⟩)) id =
          some (round2 (lookupD (percentMapSum allocs).1 id 0 *
            (if (percentMapSum allocs).2 = 0 then 0
              else 100 / (percentMapSum allocs).2) / 100 * T))) ∧
    (∀ (T : ℚ) (pids : List String) (allocs : List Allocation) (id : String),
      id ∈ filteredIds pids → (percentMapSum allocs).2 = 0 →
        lookup? (computeShares T pids (some ⟨"percent", allocs⟩)) id = some 0) ∧
    computeShares 100 ["p", "q"] (some ⟨"percent", [⟨.str "p", 75⟩, ⟨.str "q", 75⟩]⟩) =
      [("p", 50), ("q", 50)] := by
  have main : ∀ (T : ℚ) (pids : List String) (allocs : List Allocation) (id : String),
      id ∈ filteredIds pids →
        lookup? (computeShares T pids (some ⟨"percent", allocs⟩)) id =
          some (round2 (lookupD (percentMapSum allocs).1 id 0 *
            (if (percentMapSum allocs).2 = 0 then 0
              else 100 / (percentMapSum allocs).2) / 100 * T)) := by
    intro T pids allocs id h
    rw [computeShares_percent T pids ⟨"percent", allocs⟩ rfl, storeShares_lookup, if_pos h,
      jsOr_zero]
  refine ⟨main, ?_, ?_⟩
  · intro T pids allocs id h hz
    rw [main T pids allocs id h, if_pos hz]
    rw [mul_zero, zero_div, zero_mul, round2_zero]
  · rw [computeShares_percent 100 ["p", "q"] ⟨"percent", [⟨.str "p", 75⟩, ⟨.str "q", 75⟩]⟩ rfl]
    simp [percentMapSum, filteredIds, refId, jsOr, lookup?, lookupD, store, storeShares]
    norm_num [round2, jsRound, epsilonJS]

/-- C4 witness at a concrete input. -/
theorem c4_witness :
    ("p" ∈ filteredIds ["p", "q"]) ∧
    lookup? (computeShares 100 ["p", "q"]
        (some ⟨"percent", [⟨.str "p", 75⟩, ⟨.str "q", 75⟩]⟩)) "p" =
      some (round2 (lookupD (percentMapSum [⟨.str "p", 75⟩, ⟨.str "q", 75⟩]).1 "p" 0 *
        (if (percentMapSum [⟨.str "p", 75⟩, ⟨.str "q", 75⟩]).2 = 0 then 0
          else 100 / (percentMapSum [⟨.str "p", 75⟩, ⟨.str "q", 75⟩]).2) / 100 * 100)) :=
  ⟨by decide,
    c4_percent_share_formula.1 100 ["p", "q"] [⟨.str "p", 75⟩, ⟨.str "q", 75⟩] "p" (by decide)⟩

/-! ### Claim C6 -/

/-- C6: when the allocated sum misses the total by more than 0.009 and at
least one listed participant has no allocation entry, the remainder is split
evenly over exactly those leftover participants (each gets
`round2 (remainder / #leftovers)`), allocated participants keep
`round2` of their clamped allocation, and in particular
`computeShares(100, ["a","b","c"], amount a:40) = {a:40, b:30, c:30}`. -/
theorem c6_amount_remainder_distribution (T : ℚ) (pids : List String)
    (allocs : List Allocation) (hnd : (filteredIds pids).Nodup)
    (hrem : 9 / 1000 < |T - (amountMapSum allocs).2|)
    (hlf : amountLeftovers pids allocs ≠ []) :
    (∀ id ∈ amountLeftovers pids allocs,
      lookup? (computeShares T pids (some ⟨"amount", allocs⟩)) id =
        some (round2 ((T - (amountMapSum allocs).2) /
          ((amountLeftovers pids allocs).length : ℚ)))) ∧
    (∀ id ∈ filteredIds pids, id ∉ amountLeftovers pids allocs →
      lookup? (computeShares T pids (some ⟨"amount", allocs⟩)) id =
        some (round2 (lookupD (amountMapSum allocs).1 id 0))) ∧
    computeShares 100 ["a", "b", "c"] (some ⟨"amount", [⟨.str "a", 40⟩]⟩) =
      [("a", 40), ("b", 30), ("c", 30)] := by
  have hd : 9 / 1000 < jsAbs (jsOr T 0 - (amountMapSum allocs).2) ∧
      0 < (amountLeftovers pids allocs).length := by
    constructor
    · rw [jsAbs_eq_abs, jsOr_zero]
      exact hrem
    · exact List.length_pos.mpr hlf
  have heq := computeShares_amount_distribute T pids ⟨"amount", allocs⟩ rfl hd
  refine ⟨?_, ?_, ?_⟩
  · intro id hid
    have hid' : id ∈ filteredIds pids := (List.mem_filter.mp hid).1
    rw [heq, storeShares_lookup, if_pos hid']
    have : lookupD (distributedMap T pids allocs) id 0 =
        (T - (amountMapSum allocs).2) / ((amountLeftovers pids allocs).length : ℚ) := by
      unfold lookupD
      rw [distributedMap_eq T pids allocs hnd, lookup?_append,
        amountLeftovers_absent pids allocs id hid, lookup?_map_const, if_pos hid, jsOr_zero]
      rfl
    rw [this]
  · intro id hid hnotlf
    rw [heq, storeShares_lookup, if_pos hid]
    have : lookupD (distributedMap T pids allocs) id 0 =
        lookupD (amountMapSum allocs).1 id 0 := by
      unfold lookupD
      rw [distributedMap_eq T pids allocs hnd, lookup?_append]
      rcases hm : lookup? (amountMapSum allocs).1 id with _ | v
      · exfalso
        apply hnotlf
        apply List.mem_filter.mpr
        exact ⟨hid, by simp [hm]⟩
      · rfl
    rw [this]
  · rw [computeShares_amount_distribute 100 ["a", "b", "c"] ⟨"amount", [⟨.str "a", 40⟩]⟩ rfl
      (by simp [amountMapSum, amountLeftovers, filteredIds, refId, jsMax, jsOr, lookup?, store]
          norm_num [jsAbs])]
    simp [distributedMap, amountLeftovers, amountMapSum, filteredIds, refId, jsMax, jsOr,
      jsOrOpt, lookup?, lookupD, store, storeShares]
    norm_num [round2, jsRound, epsilonJS]

/-- C6 witness at the claim's concrete input. -/
theorem c6_witness :
    ((filteredIds ["a", "b", "c"]).Nodup ∧
      9 / 1000 < |(100 : ℚ) - (amountMapSum [⟨.str "a", 40⟩]).2| ∧
      amountLeftovers ["a", "b", "c"] [⟨.str "a", 40⟩] ≠ []) ∧
    (∀ id ∈ amountLeftovers ["a", "b", "c"] [⟨.str "a", 40⟩],
      lookup? (computeShares 100 ["a", "b", "c"] (some ⟨"amount", [⟨.str "a", 40⟩]⟩)) id =
        some (round2 ((100 - (amountMapSum [⟨.str "a", 40⟩]).2) /
          ((amountLeftovers ["a", "b", "c"] [⟨.str "a", 40⟩]).length : ℚ)))) :=
  ⟨⟨by decide,
    by
      simp [amountMapSum, refId, jsMax, jsOr, store]
      norm_num,
    by decide⟩,
    (c6_amount_remainder_distribution 100 ["a", "b", "c"] [⟨.str "a", 40⟩] (by decide)
      (by
        simp [amountMapSum, refId, jsMax, jsOr, store]
        norm_num)
      (by decide)).1⟩

/-! ### Claim C8 -/

theorem clampedFoldl_nonneg (allocs : List Allocation) :
    ∀ acc : ℚ, 0 ≤ acc →
      0 ≤ allocs.foldl (fun acc a => acc + jsMax 0 (jsOr a.value 0)) acc := by
  induction allocs with
  | nil => intro acc h; simpa using h
  | cons a rest ih =>
      intro acc h
      simp only [List.foldl_cons]
      apply ih
      have : (0 : ℚ) ≤ jsMax 0 (jsOr a.value 0) := by
        rw [jsMax_eq_max]
        exact le_max_left 0 _
      linarith

/-- C8: `validateSplit` reports `ok = false` exactly for a percent-type split
whose raw allocation values sum to at most 0; a message is present exactly
when `ok` is false; the clamped amount-path sum is never negative, so every
amount-type split (and every absent / equal / unknown-type spec) validates. -/
theorem c8_validate_characterization :
    (∀ (T : ℚ) (pids : List String) (s : Option ExpenseSplit),
      (validateSplit T pids s).ok = false ↔
        ∃ sp, s = some sp ∧ sp.type = "percent" ∧
          sp.allocations.foldl (fun acc a => acc + jsOr a.value 0) 0 ≤ 0) ∧
    (∀ (T : ℚ) (pids : List String) (s : Option ExpenseSplit),
      (validateSplit T pids s).message.isSome = !(validateSplit T pids s).ok) ∧
    (∀ allocs : List Allocation,
      (0 : ℚ) ≤ allocs.foldl (fun acc a => acc + jsMax 0 (jsOr a.value 0)) 0) ∧
    (∀ (T : ℚ) (pids : List String) (allocs : List Allocation),
      (validateSplit T pids (some ⟨"amount", allocs⟩)).ok = true) := by
  have hval : ∀ (T : ℚ) (pids : List String) (sp : ExpenseSplit),
      validateSplit T pids (some sp) =
        if sp.type = "equal" then ⟨true, none⟩
        else if sp.type = "percent" then
          (if sp.allocations.foldl (fun acc a => acc + jsOr a.value 0) 0 ≤ 0 then
            ⟨false, some "Percentages must sum to > 0"⟩ else ⟨true, none⟩)
        else if sp.type = "amount" then
          (if sp.allocations.foldl (fun acc a => acc + jsMax 0 (jsOr a.value 0)) 0 < 0 then
            ⟨false, some "Invalid amounts"⟩ else ⟨true, none⟩)
        else ⟨true, none⟩ := fun T pids sp => rfl
  refine ⟨?_, ?_, fun allocs => clampedFoldl_nonneg allocs 0 le_rfl, ?_⟩
  · intro T pids s
    rcases s with _ | sp
    · simp [validateSplit]
    · rw [hval]
      by_cases h1 : sp.type = "equal"
      · simp [h1]
      · by_cases h2 : sp.type = "percent"
        · simp only [h1, if_false, h2, if_true, reduceIte]
          by_cases hs : sp.allocations.foldl (fun acc a => acc + jsOr a.value 0) 0 ≤ 0
          · simp only [if_pos hs]
            constructor
            · intro _
              exact ⟨sp, rfl, h2, hs⟩
            · intro _
              rfl
          · simp only [if_neg hs]
            constructor
            · intro hcontr
              cases hcontr
            · rintro ⟨sp', hsp', _, hsum⟩
              injection hsp' with hsp'
              subst hsp'
              exact absurd hsum hs
        · by_cases h3 : sp.type = "amount"
          · simp only [h1, if_false, h2, h3, if_true, reduceIte]
            rw [if_neg (not_lt.mpr (clampedFoldl_nonneg sp.allocations 0 le_rfl))]
            constructor
            · intro hcontr
              cases hcontr
            · rintro ⟨sp', hsp', hperc, _⟩
              injection hsp' with hsp'
              subst hsp'
              exact absurd hperc h2
          · simp only [h1, h2, h3, if_false, reduceIte]
            constructor
            · intro hcontr
              cases hcontr
            · rintro ⟨sp', hsp', hperc, _⟩
              injection hsp' with hsp'
              subst hsp'
              exact absurd hperc h2
  · intro T pids s
    rcases s with _ | sp
    · simp [validateSplit]
    · rw [hval]
      by_cases h1 : sp.type = "equal"
      · simp [h1]
      · by_cases h2 : sp.type = "percent"
        · simp only [h1, if_false, h2, if_true, reduceIte]
          by_cases hs : sp.allocations.foldl (fun acc a => acc + jsOr a.value 0) 0 ≤ 0
          · simp [if_pos hs]
          · simp [if_neg hs]
        · by_cases h3 : sp.type = "amount"
          · simp only [h1, if_false, h2, h3, if_true, reduceIte]
            rw [if_neg (not_lt.mpr (clampedFoldl_nonneg sp.allocations 0 le_rfl))]
            rfl
          · simp [h1, h2, h3]
  · intro T pids allocs
    rw [hval]
    simp only [String.reduceEq, if_false, reduceIte]
    rw [if_neg (not_lt.mpr (clampedFoldl_nonneg allocs 0 le_rfl))]

/-! ### Claim C1 -/

/-- C1 counterexample: the all-zero amount allocation `{a: 0}` with total 100
is valid under the claim's condition (the positive-allocation sum 0 is at
most the total, and every participant is covered, so there are no leftovers),
yet the no-leftover rebalancing uses factor 0 and every share is 0 — the
share sum 0 misses `round2 100 = 100` by far more than 0.01. -/
theorem c1_counterexample :
    computeShares 100 ["a"] (some ⟨"amount", [⟨.str "a", 0⟩]⟩) = [("a", 0)] ∧
    sumValues (computeShares 100 ["a"] (some ⟨"amount", [⟨.str "a", 0⟩]⟩)) = 0 ∧
    round2 100 = 100 ∧
    ¬(|sumValues (computeShares 100 ["a"] (some ⟨"amount", [⟨.str "a", 0⟩]⟩)) - round2 100| ≤
        1 / 100) ∧
    amountLeftovers ["a"] [⟨.str "a", 0⟩] = [] ∧
    (amountMapSum [⟨.str "a", 0⟩]).2 ≤ 100 := by
  have h1 : computeShares 100 ["a"] (some ⟨"amount", [⟨.str "a", 0⟩]⟩) = [("a", 0)] := by
    rw [computeShares_amount_rescale 100 ["a"] ⟨"amount", [⟨.str "a", 0⟩]⟩ rfl
      (by simp [amountMapSum, amountLeftovers, filteredIds, refId, jsMax, jsOr, lookup?, store])
      (by simp [amountMapSum, filteredIds, refId, jsMax, jsOr, lookup?, store]
          norm_num [jsAbs])]
    simp [amountMapSum, filteredIds, refId, jsMax, jsOr, jsOrOpt, lookup?, lookupD, store,
      storeShares]
    norm_num [round2, jsRound, epsilonJS]
  have h2 : round2 (100 : ℚ) = 100 := by norm_num [round2, jsRound, epsilonJS]
  refine ⟨h1, ?_, h2, ?_, by decide, ?_⟩
  · rw [h1]
    simp [sumValues]
  · rw [h1, h2]
    simp [sumValues]
    norm_num
  · simp [amountMapSum, refId, jsMax, jsOr, store]

/-- C1 (amended): for an amount-type split whose resolved allocation users
are distinct listed participants, and which does not hit the degenerate
no-leftover rebalancing with a zero allocation sum (there all shares are 0),
the share values sum to `round2 T` within `(n+1) * 0.0051 + 0.009` where `n`
is the number of listed participants; in the no-leftover rebalancing case
each participant's clamped allocation is rescaled by `T / sum` (0 if `sum`
is 0) before rounding. -/
theorem c1_amount_sum_bound (T : ℚ) (pids : List String) (allocs : List Allocation)
    (hnd : (filteredIds pids).Nodup)
    (hkeys : ((amountEntries allocs).map (fun p => p.1)).Nodup)
    (hsub : ∀ k ∈ (amountEntries allocs).map (fun p => p.1), k ∈ filteredIds pids)
    (hnz : 9 / 1000 < |T - (amountMapSum allocs).2| →
      amountLeftovers pids allocs = [] → (amountMapSum allocs).2 ≠ 0) :
    |sumValues (computeShares T pids (some ⟨"amount", allocs⟩)) - round2 T| ≤
      (((filteredIds pids).length : ℚ) + 1) * (51 / 10000) + 9 / 1000 ∧
    (9 / 1000 < |T - (amountMapSum allocs).2| → amountLeftovers pids allocs = [] →
      ∀ id ∈ filteredIds pids,
        lookup? (computeShares T pids (some ⟨"amount", allocs⟩)) id =
          some (round2 (lookupD (amountMapSum allocs).1 id 0 *
            (if (amountMapSum allocs).2 = 0 then 0
              else T / (amountMapSum allocs).2)))) := by
  have hms := amountMapSum_eq allocs hkeys
  have hknd : ((amountMapSum allocs).1.map (fun p => p.1)).Nodup := by
    rw [hms]
    exact hkeys
  have hksub : ∀ k ∈ (amountMapSum allocs).1.map (fun p => p.1), k ∈ filteredIds pids := by
    rw [hms]
    exact hsub
  have hsum0 : sumValues (amountMapSum allocs).1 = (amountMapSum allocs).2 := by
    rw [hms]
  have hT : |round2 T - T| ≤ 51 / 10000 := round2_sub_le T
  have hn0 : (0 : ℚ) ≤ ((filteredIds pids).length : ℚ) := by positivity
  by_cases hd : 9 / 1000 < jsAbs (jsOr T 0 - (amountMapSum allocs).2) ∧
      0 < (amountLeftovers pids allocs).length
  · -- remainder-distribution branch
    have heq : computeShares T pids (some ⟨"amount", allocs⟩) =
        storeShares (filteredIds pids)
          (fun id => round2 (lookupD (distributedMap T pids allocs) id 0)) :=
      computeShares_amount_distribute T pids ⟨"amount", allocs⟩ rfl hd
    have hdm := distributedMap_eq T pids allocs hnd
    have hlen : ((amountLeftovers pids allocs).length : ℚ) ≠ 0 := by
      exact_mod_cast Nat.pos_iff_ne_zero.mp hd.2
    have hdisj : ∀ a ∈ (amountMapSum allocs).1.map (fun p => p.1),
        a ∉ amountLeftovers pids allocs := by
      intro a ha hcontra
      have := amountLeftovers_absent pids allocs a hcontra
      rw [lookup?_eq_none_iff] at this
      exact this ha
    have hdkeys : ((distributedMap T pids allocs).map (fun p => p.1)).Nodup := by
      rw [hdm]
      rw [List.map_append]
      have hmapfst : ((amountLeftovers pids allocs).map
          (fun id => (id, (jsOr T 0 - (amountMapSum allocs).2) /
            ((amountLeftovers pids allocs).length : ℚ)))).map (fun p => p.1) =
          amountLeftovers pids allocs := by
        rw [List.map_map]
        rw [show ((fun (p : String × ℚ) => p.1) ∘
            fun id => (id, (jsOr T 0 - (amountMapSum allocs).2) /
              ((amountLeftovers pids allocs).length : ℚ))) = fun id => id from rfl]
        exact List.map_id _
      rw [hmapfst]
      exact List.Nodup.append hknd (amountLeftovers_nodup pids allocs hnd) hdisj
    have hdsub : ∀ k ∈ (distributedMap T pids allocs).map (fun p => p.1),
        k ∈ filteredIds pids := by
      intro k hk
      rw [hdm, List.map_append] at hk
      rcases List.mem_append.mp hk with hk | hk
      · exact hksub k hk
      · rw [List.map_map] at hk
        simp only [List.mem_map] at hk
        obtain ⟨x, hx, hxk⟩ := hk
        have : x = k := by simpa using hxk
        subst this
        exact (List.mem_filter.mp hx).1
    have hsumd : sumValues (distributedMap T pids allocs) = T := by
      rw [hdm]
      unfold sumValues
      rw [List.map_append, List.sum_append, List.map_map]
      have : ((amountLeftovers pids allocs).map
          ((fun p => p.2) ∘ (fun id => (id, (jsOr T 0 - (amountMapSum allocs).2) /
            ((amountLeftovers pids allocs).length : ℚ))))).sum =
          ((amountLeftovers pids allocs).length : ℚ) *
            ((jsOr T 0 - (amountMapSum allocs).2) /
              ((amountLeftovers pids allocs).length : ℚ)) := by
        exact sum_map_const_q _ _
      rw [this, mul_comm, div_mul_cancel₀ _ hlen]
      have hfst : ((amountMapSum allocs).1.map (fun p => p.2)).sum =
          (amountMapSum allocs).2 := hsum0
      rw [hfst, jsOr_zero]
      ring
    have hexact : ((filteredIds pids).map
        (fun id => lookupD (distributedMap T pids allocs) id 0)).sum = T := by
      rw [sum_lookupD (filteredIds pids) (distributedMap T pids allocs) hnd hdkeys hdsub]
      exact hsumd
    constructor
    · rw [heq, sumValues_storeShares _ _ hnd]
      have hb := sum_map_sub_abs_le (filteredIds pids)
        (fun id => round2 (lookupD (distributedMap T pids allocs) id 0))
        (fun id => lookupD (distributedMap T pids allocs) id 0) (51 / 10000)
        (fun x _ => round2_sub_le _)
      rw [hexact] at hb
      have htri := abs_sub_le
        (((filteredIds pids).map
          (fun id => round2 (lookupD (distributedMap T pids allocs) id 0))).sum) T (round2 T)
      have habs : |T - round2 T| = |round2 T - T| := abs_sub_comm T (round2 T)
      rw [habs] at htri
      linarith
    · intro _ hempty
      exfalso
      have := hd.2
      rw [hempty] at this
      simp at this
  · -- no distribution
    by_cases hs : 9 / 1000 < jsAbs ((amountMapSum allocs).2 - jsOr T 0)
    · -- rescale branch
      have hgt : 9 / 1000 < |T - (amountMapSum allocs).2| := by
        rw [jsAbs_eq_abs, jsOr_zero] at hs
        rw [abs_sub_comm] at hs
        exact hs
      have hempty : amountLeftovers pids allocs = [] := by
        push_neg at hd
        have hA : 9 / 1000 < jsAbs (jsOr T 0 - (amountMapSum allocs).2) := by
          rw [jsAbs_eq_abs, jsOr_zero]
          rw [abs_sub_comm]
          rw [jsAbs_eq_abs, jsOr_zero] at hs
          exact hs
        have := hd hA
        exact List.length_eq_zero.mp (Nat.le_zero.mp this)
      have hSne : (amountMapSum allocs).2 ≠ 0 := hnz hgt hempty
      have heq : computeShares T pids (some ⟨"amount", allocs⟩) =
          storeShares (filteredIds pids)
            (fun id => round2 (lookupD (amountMapSum allocs).1 id 0 *
              (if (amountMapSum allocs).2 = 0 then 0
                else jsOr T 0 / (amountMapSum allocs).2))) :=
        computeShares_amount_rescale T pids ⟨"amount", allocs⟩ rfl hd hs
      have heq' : computeShares T pids (some ⟨"amount", allocs⟩) =
          storeShares (filteredIds pids)
            (fun id => round2 (lookupD (amountMapSum allocs).1 id 0 *
              (T / (amountMapSum allocs).2))) := by
        rw [heq]
        congr 1
        funext id
        rw [if_neg hSne, jsOr_zero]
      have hexact : ((filteredIds pids).map
          (fun id => lookupD (amountMapSum allocs).1 id 0 *
            (T / (amountMapSum allocs).2))).sum = T := by
        rw [sum_map_mul_right_q,
          sum_lookupD (filteredIds pids) (amountMapSum allocs).1 hnd hknd hksub, hsum0,
          mul_comm, div_mul_cancel₀ _ hSne]
      constructor
      · rw [heq', sumValues_storeShares _ _ hnd]
        have hb := sum_map_sub_abs_le (filteredIds pids)
          (fun id => round2 (lookupD (amountMapSum allocs).1 id 0 *
            (T / (amountMapSum allocs).2)))
          (fun id => lookupD (amountMapSum allocs).1 id 0 *
            (T / (amountMapSum allocs).2)) (51 / 10000)
          (fun x _ => round2_sub_le _)
        rw [hexact] at hb
        have htri := abs_sub_le
          (((filteredIds pids).map
            (fun id => round2 (lookupD (amountMapSum allocs).1 id 0 *
              (T / (amountMapSum allocs).2)))).sum) T (round2 T)
        have habs : |T - round2 T| = |round2 T - T| := abs_sub_comm T (round2 T)
        rw [habs] at htri
        linarith
      · intro _ _ id hid
        rw [heq', storeShares_lookup, if_pos hid, if_neg hSne]
    · -- balanced branch
      have hclose : |T - (amountMapSum allocs).2| ≤ 9 / 1000 := by
        rw [jsAbs_eq_abs, jsOr_zero] at hs
        rw [abs_sub_comm]
        exact not_lt.mp hs
      have heq : computeShares T pids (some ⟨"amount", allocs⟩) =
          storeShares (filteredIds pids)
            (fun id => round2 (lookupD (amountMapSum allocs).1 id 0)) :=
        computeShares_amount_balanced T pids ⟨"amount", allocs⟩ rfl hd hs
      have hexact : ((filteredIds pids).map
          (fun id => lookupD (amountMapSum allocs).1 id 0)).sum =
          (amountMapSum allocs).2 := by
        rw [sum_lookupD (filteredIds pids) (amountMapSum allocs).1 hnd hknd hksub, hsum0]
      constructor
      · rw [heq, sumValues_storeShares _ _ hnd]
        have hb := sum_map_sub_abs_le (filteredIds pids)
          (fun id => round2 (lookupD (amountMapSum allocs).1 id 0))
          (fun id => lookupD (amountMapSum allocs).1 id 0) (51 / 10000)
          (fun x _ => round2_sub_le _)
        rw [hexact] at hb
        have habs1 : |((filteredIds pids).map
            (fun id => round2 (lookupD (amountMapSum allocs).1 id 0))).sum - round2 T| ≤
            |((filteredIds pids).map
              (fun id => round2 (lookupD (amountMapSum allocs).1 id 0))).sum -
                (amountMapSum allocs).2| +
              |(amountMapSum allocs).2 - T| + |T - round2 T| := by
          have t1 := abs_sub_le
            (((filteredIds pids).map
              (fun id => round2 (lookupD (amountMapSum allocs).1 id 0))).sum)
            ((amountMapSum allocs).2) (round2 T)
          have t2 := abs_sub_le ((amountMapSum allocs).2) T (round2 T)
          linarith
        have habs2 : |(amountMapSum allocs).2 - T| = |T - (amountMapSum allocs).2| :=
          abs_sub_comm _ _
        have habs3 : |T - round2 T| = |round2 T - T| := abs_sub_comm T (round2 T)
        rw [habs2, habs3] at habs1
        linarith
      · intro hgt _
        exfalso
        linarith

/-- C1 witness at the concrete input of the remainder-distribution example. -/
theorem c1_witness :
    ((filteredIds ["a", "b", "c"]).Nodup ∧
      ((amountEntries [⟨.str "a", 40⟩]).map (fun p => p.1)).Nodup ∧
      (∀ k ∈ (amountEntries [⟨.str "a", 40⟩]).map (fun p => p.1),
        k ∈ filteredIds ["a", "b", "c"])) ∧
    |sumValues (computeShares 100 ["a", "b", "c"] (some ⟨"amount", [⟨.str "a", 40⟩]⟩)) -
        round2 100| ≤
      (((filteredIds ["a", "b", "c"]).length : ℚ) + 1) * (51 / 10000) + 9 / 1000 :=
  ⟨⟨by decide, by decide, by decide⟩,
    (c1_amount_sum_bound 100 ["a", "b", "c"] [⟨.str "a", 40⟩] (by decide) (by decide)
      (by decide)
      (by
        intro _ hempty
        exact absurd hempty (by decide))).1⟩

/-! Aggregator helper lemmas. -/

theorem accumulateOwedBy_cons (mb : List (String × Member)) (mid : String)
    (sm : List (String × ℚ)) (p : NormParticipant) (t : List NormParticipant)
    (ob : List (String × NamedAmount)) :
    accumulateOwedBy mb mid sm (p :: t) ob =
      accumulateOwedBy mb mid sm t
        (if p.id ≠ mid ∧ p.status ≠ "paid" then
          match lookup? ob p.id with
          | some e => store ob p.id ⟨e.name, e.amount + jsOrOpt (lookup? sm p.id) 0⟩
          | none => store ob p.id ⟨resolveName mb p.id p.id, jsOrOpt (lookup? sm p.id) 0⟩
        else ob) := rfl

theorem accumulateOwedBy_lookup_preserved (mb : List (String × Member)) (mid : String)
    (sm : List (String × ℚ)) (ps : List NormParticipant)
    (ob : List (String × NamedAmount)) (q : String)
    (h : ∀ p ∈ ps, p.id = q → p.status = "paid") :
    lookup? (accumulateOwedBy mb mid sm ps ob) q = lookup? ob q := by
  induction ps generalizing ob with
  | nil => rfl
  | cons p t ih =>
      have hq : p.id = q → p.status = "paid" := h p (by simp)
      have ht : ∀ r ∈ t, r.id = q → r.status = "paid" :=
        fun r hr => h r (List.mem_cons_of_mem p hr)
      rw [accumulateOwedBy_cons, ih _ ht]
      by_cases hc : p.id ≠ mid ∧ p.status ≠ "paid"
      · have hpq : ¬q = p.id := fun hh => hc.2 (hq hh.symm)
        rw [if_pos hc]
        rcases hlo : lookup? ob p.id with _ | entry
        · exact lookup?_store_ne ob p.id q _ hpq
        · exact lookup?_store_ne ob p.id q _ hpq
      · rw [if_neg hc]

theorem processExpense_cases (mb : List (String × Member)) (mid : String)
    (st : AggState) (e : Expense) :
    processExpense mb mid st e =
      match (expParticipants e).find? (fun p => p.id == mid) with
      | none => st
      | some mp =>
        if getUserId e.paidBy = some mid then
          { st with
            totalPaid := st.totalPaid + jsOr e.amount 0
            owedBy := accumulateOwedBy mb mid
              (computeShares (jsOr e.amount 0) ((expParticipants e).map (fun p => p.id))
                e.split)
              (expParticipants e) st.owedBy }
        else
          if mp.status ≠ "paid" ∧ getUserId e.paidBy ≠ none ∧
              getUserId e.paidBy ≠ some "" ∧ getUserId e.paidBy ≠ some mid then
            { st with
              totalOwed := st.totalOwed +
                jsOrOpt (lookup?
                  (computeShares (jsOr e.amount 0)
                    ((expParticipants e).map (fun p => p.id)) e.split) mid) 0
              owedTo :=
                match lookup? st.owedTo ((getUserId e.paidBy).getD "") with
                | some en => store st.owedTo ((getUserId e.paidBy).getD "")
                    ⟨en.name, en.amount +
                      jsOrOpt (lookup?
                        (computeShares (jsOr e.amount 0)
                          ((expParticipants e).map (fun p => p.id)) e.split) mid) 0⟩
                | none => store st.owedTo ((getUserId e.paidBy).getD "")
                    ⟨payerDisplayName mb (getUserId e.paidBy),
                      jsOrOpt (lookup?
                        (computeShares (jsOr e.amount 0)
                          ((expParticipants e).map (fun p => p.id)) e.split) mid) 0⟩ }
          else st := rfl

/-! ### Claim C7 -/

/-- C7: an expense on which every participant entry carrying the target
member's id is already `"paid"` contributes nothing to that member's
`totalOwed` or `owedTo`; and a participant `q` all of whose entries are
already `"paid"` never gains or changes an `owedBy` entry — in particular
the payer's `owedBy` is untouched for already-paid counterparties. -/
theorem c7_paid_participants_excluded (mb : List (String × Member)) (mid q : String)
    (st : AggState) (e : Expense)
    (h1 : ∀ p ∈ expParticipants e, p.id = mid → p.status = "paid")
    (h2 : ∀ p ∈ expParticipants e, p.id = q → p.status = "paid") :
    (processExpense mb mid st e).totalOwed = st.totalOwed ∧
    (processExpense mb mid st e).owedTo = st.owedTo ∧
    lookup? (processExpense mb mid st e).owedBy q = lookup? st.owedBy q := by
  rw [processExpense_cases]
  rcases hf : (expParticipants e).find? (fun p => p.id == mid) with _ | mp
  · simp only [hf]
    exact ⟨by trivial, by trivial, by trivial⟩
  · have hmem : mp ∈ expParticipants e := List.mem_of_find?_eq_some hf
    have hpred := List.find?_some hf
    have hmid : mp.id = mid := by simpa using hpred
    have hpaid : mp.status = "paid" := h1 mp hmem hmid
    simp only [hf]
    by_cases hpay : getUserId e.paidBy = some mid
    · simp only [if_pos hpay]
      refine ⟨by trivial, by trivial, ?_⟩
      exact accumulateOwedBy_lookup_preserved mb mid _ (expParticipants e) st.owedBy q h2
    · simp only [if_neg hpay]
      rw [if_neg (fun hc => hc.1 hpaid)]
      exact ⟨by trivial, by trivial, by trivial⟩

/-- C7 witness at a concrete input: one expense whose two participants are
both already paid touches neither `totalOwed`, `owedTo`, nor the `owedBy`
entry of `"bob"` when aggregating for `"alice"`. -/
theorem c7_witness :
    ((∀ p ∈ expParticipants
        ⟨10, .str "alice",
          some [⟨.obj (some "alice") none, some "paid"⟩, ⟨.obj (some "bob") none, some "paid"⟩],
          none⟩, p.id = "alice" → p.status = "paid") ∧
      (∀ p ∈ expParticipants
        ⟨10, .str "alice",
          some [⟨.obj (some "alice") none, some "paid"⟩, ⟨.obj (some "bob") none, some "paid"⟩],
          none⟩, p.id = "bob" → p.status = "paid")) ∧
    ((processExpense [] "alice" ⟨0, 0, [], []⟩
        ⟨10, .str "alice",
          some [⟨.obj (some "alice") none, some "paid"⟩, ⟨.obj (some "bob") none, some "paid"⟩],
          none⟩).totalOwed = (⟨0, 0, [], []⟩ : AggState).totalOwed ∧
      (processExpense [] "alice" ⟨0, 0, [], []⟩
        ⟨10, .str "alice",
          some [⟨.obj (some "alice") none, some "paid"⟩, ⟨.obj (some "bob") none, some "paid"⟩],
          none⟩).owedTo = (⟨0, 0, [], []⟩ : AggState).owedTo ∧
      lookup? (processExpense [] "alice" ⟨0, 0, [], []⟩
        ⟨10, .str "alice",
          some [⟨.obj (some "alice") none, some "paid"⟩, ⟨.obj (some "bob") none, some "paid"⟩],
          none⟩).owedBy "bob" = lookup? (⟨0, 0, [], []⟩ : AggState).owedBy "bob") :=
  ⟨⟨by decide, by decide⟩,
    c7_paid_participants_excluded [] "alice" "bob" ⟨0, 0, [], []⟩
      ⟨10, .str "alice",
        some [⟨.obj (some "alice") none, some "paid"⟩, ⟨.obj (some "bob") none, some "paid"⟩],
        none⟩ (by decide) (by decide)⟩

/-! ### Claim C2 -/

/-- C2: the end-to-end balance scenario.  For group members `alice`, `bob`
and one equal-split expense of 100 paid by `alice` (alice `paid`, bob
`unpaid`): aggregating for `bob` gives `totalOwed = 50`,
`owedTo = {alice ↦ 50}`, `netBalance = -50`; aggregating for `alice` gives
`totalPaid = 100`, `owedBy = {bob ↦ 50}`, `netBalance = 50`.  In general,
`netBalance` is the sum of the `owedBy` amounts minus `totalOwed`. -/
theorem c2_balance_end_to_end :
    (∀ (members : List Member) (expenses : List Expense) (memberId : String),
      (calculateMemberExpenses members expenses memberId).netBalance =
        ((calculateMemberExpenses members expenses memberId).owedBy.map
          (fun p => p.2.amount)).sum -
        (calculateMemberExpenses members expenses memberId).totalOwed) ∧
    calculateMemberExpenses
        [⟨"alice", none, none⟩, ⟨"bob", none, none⟩]
        [⟨100, .str "alice",
          some [⟨.obj (some "alice") none, some "paid"⟩,
            ⟨.obj (some "bob") none, some "unpaid"⟩],
          some ⟨"equal", []⟩⟩] "bob" =
      ⟨50, 0, [("alice", ⟨"Unknown", 50⟩)], [], 0, -50⟩ ∧
    calculateMemberExpenses
        [⟨"alice", none, none⟩, ⟨"bob", none, none⟩]
        [⟨100, .str "alice",
          some [⟨.obj (some "alice") none, some "paid"⟩,
            ⟨.obj (some "bob") none, some "unpaid"⟩],
          some ⟨"equal", []⟩⟩] "alice" =
      ⟨0, 100, [], [("bob", ⟨"bob", 50⟩)], 50, 50⟩ := by
  refine ⟨fun members expenses memberId => rfl, ?_, ?_⟩
  · simp [calculateMemberExpenses, memberIndex, store, processExpense_cases, expParticipants,
      jvalUser, getUserId, lookup?, jsOrOpt, jsOr, payerDisplayName, jsOrStrOpt, jsOrStr,
      resolveName, accumulateOwedBy, lookupD, filteredIds, equalDen]
    norm_num [round2, jsRound, epsilonJS]
  · simp [calculateMemberExpenses, memberIndex, store, processExpense_cases, expParticipants,
      jvalUser, getUserId, lookup?, jsOrOpt, jsOr, payerDisplayName, jsOrStrOpt, jsOrStr,
      resolveName, accumulateOwedBy, lookupD, filteredIds, equalDen]
    norm_num [round2, jsRound, epsilonJS]

end SplitSmart
